import Mathlib

/-
Verification of the employee CSV import screen (EmployeeImport component):
the delimited-text parser, the record mapper, the validation engine, the
correction loop and the commit orchestrator, embedded shallowly with
JavaScript value semantics (undefined, NaN and truthiness made explicit).
-/

namespace EmployeeImport

/-- The whitespace characters stripped by the trim of JavaScript strings
(the ASCII part, which is all the import flow produces). -/
def isJsSpace (c : Char) : Bool :=
  c == ' ' || c == '\t' || c == '\n' || c == '\r' || c == '\x0b' || c == '\x0c'

/-- Strip leading and trailing whitespace from a character list. -/
def trimChars (cs : List Char) : List Char :=
  ((cs.dropWhile isJsSpace).reverse.dropWhile isJsSpace).reverse

/-- Models the trim method on JavaScript strings. -/
def jsTrim (s : String) : String :=
  String.mk (trimChars s.data)

/-- Models toLowerCase on JavaScript strings (ASCII case folding). -/
def jsToLower (s : String) : String :=
  String.mk (s.data.map Char.toLower)

/-- A string-typed field of the screen: undefined or a string.  A field
holding the empty string and an undefined field are both falsy. -/
def jsTruthyStr : Option String → Bool
  | none => false
  | some s => !(s == "")

/-- The string a truthy string-typed field holds (undefined reads as the
empty string; the code only calls string methods on truthy values). -/
def jsStrOf : Option String → String
  | none => ""
  | some s => s

/-- A number-typed field of the screen as JavaScript holds it: undefined,
NaN (what parseInt returns on input with no leading digits), or an integer. -/
inductive NumVal
  | undef
  | nan
  | int (n : Int)
deriving DecidableEq

/-- JavaScript truthiness of a number-typed field: undefined, NaN and 0 are
falsy, every other number is truthy. -/
def jsTruthyNum : NumVal → Bool
  | .undef => false
  | .nan => false
  | .int n => !(n == 0)

/-- Number(x) applied to a number-typed value: undefined coerces to NaN and
numbers stay themselves. -/
def jsNumber : NumVal → NumVal
  | .undef => .nan
  | .nan => .nan
  | .int n => .int n

/-- The isNaN test on a number-typed value. -/
def numIsNaN : NumVal → Bool
  | .nan => true
  | _ => false

/-- The comparison x < b on a number-typed value; comparisons against NaN
are false (the code tests isNaN first, so this branch is never decisive). -/
def numLt (x : NumVal) (b : Int) : Bool :=
  match x with
  | .int n => decide (n < b)
  | _ => false

/-- The comparison x > b on a number-typed value. -/
def numGt (x : NumVal) (b : Int) : Bool :=
  match x with
  | .int n => decide (b < n)
  | _ => false

/-- String interpolation of a string-typed field, as a template literal
renders it: undefined prints as the text undefined. -/
def jsShowOptStr : Option String → String
  | none => "undefined"
  | some s => s

/-! ## Delimited-text parser (parseCSV) -/

/-- Split a character list at every occurrence of a separator, keeping empty
segments, as the split method of JavaScript strings does. -/
def splitChar (sep : Char) : List Char → List (List Char)
  | [] => [[]]
  | c :: cs =>
    match splitChar sep cs with
    | [] => [[]]
    | seg :: segs => if c == sep then [] :: seg :: segs else (c :: seg) :: segs

/-- The character scan of one line of parseCSV: a double quote toggles the
inQuotes flag, a comma outside quotes closes the current cell (trimmed), and
every other character is appended to the current cell; the last buffered
cell is emitted at end of line. -/
def parseCSVLine : List Char → List String → List Char → Bool → List String
  | [], row, current, _ => row ++ [String.mk (trimChars current)]
  | c :: cs, row, current, inQuotes =>
    if c == '"' then
      parseCSVLine cs row current (!inQuotes)
    else if c == ',' && !inQuotes then
      parseCSVLine cs (row ++ [String.mk (trimChars current)]) [] inQuotes
    else
      parseCSVLine cs row (current ++ [c]) inQuotes

/-- parseCSV: split the text on line breaks, drop blank lines (lines whose
trim is empty, i.e. falsy), and scan each remaining line into cells. -/
def parseCSV (text : String) : List (List String) :=
  let lines := (splitChar '\n' text.data).filter (fun line => !(trimChars line).isEmpty)
  lines.map (fun line => parseCSVLine line [] [] false)

/-! ## Data model -/

/-- EditableEmployee: one candidate record of the import table.  The model
tracks the six imported columns together with the bookkeeping fields; the
optional skills and status columns of the wider schema are never read by
validation or by the commit projection, so they are not tracked. -/
structure EditableEmployee where
  id : String
  employee_id : Option String
  name : Option String
  age : NumVal
  department : Option String
  salary : NumVal
  hire_date : Option String
  isValid : Bool
  validationErrors : List (String × String)
  isExcluded : Bool
deriving DecidableEq

/-- The payload sent to the store for one record: the six imported fields,
as getValidEmployeesForImport projects them. -/
structure EmployeeCreate where
  employee_id : Option String
  name : Option String
  age : NumVal
  department : Option String
  salary : NumVal
  hire_date : Option String
deriving DecidableEq

/-- The record object a successful create call returns. -/
structure StoredEmployee where
  employee_id : String
deriving DecidableEq

/-! ## Validation engine (validateEmployee, validateAllEmployees) -/

/-- The length of the csvDuplicates filter of validateEmployee: the records
of the batch, other than the one being validated, whose truthy employee_id
trims to the same string. -/
def csvDupCount (currentEmployeeId selfId : String)
    (allEmployees : List EditableEmployee) : Nat :=
  (allEmployees.filter (fun emp =>
    jsTruthyStr emp.employee_id &&
      (jsTrim (jsStrOf emp.employee_id) == currentEmployeeId) &&
      !(emp.id == selfId))).length

/-- The employee_id rule: required after trim; a duplicate inside the CSV
sets the duplicate message; an identifier already in the database then
overwrites it with the database message. -/
def employeeIdError (employee : EditableEmployee)
    (allEmployees : List EditableEmployee)
    (existingEmployees : List String) : Option String :=
  if !jsTruthyStr employee.employee_id ||
      (jsTrim (jsStrOf employee.employee_id) == "") then
    some "Employee ID is required"
  else
    let currentEmployeeId := jsTrim (jsStrOf employee.employee_id)
    let csvError : Option String :=
      if csvDupCount currentEmployeeId employee.id allEmployees > 0 then
        some "Duplicate Employee ID found in CSV"
      else none
    if existingEmployees.contains currentEmployeeId then
      some "Employee ID already exists in database"
    else csvError

/-- The name rule: required after trim, then minimum length 2 (measured on
the untrimmed string, as the source does). -/
def nameError (employee : EditableEmployee) : Option String :=
  if !jsTruthyStr employee.name || (jsTrim (jsStrOf employee.name) == "") then
    some "Name is required"
  else if (jsStrOf employee.name).length < 2 then
    some "Name must be at least 2 characters"
  else none

/-- The age rule: the falsy check (undefined, NaN or 0) reports required,
then Number(age) must not be NaN and must lie between 16 and 100. -/
def ageError (age : NumVal) : Option String :=
  if !jsTruthyNum age then
    some "Age is required"
  else
    let ageNum := jsNumber age
    if numIsNaN ageNum || numLt ageNum 16 || numGt ageNum 100 then
      some "Age must be a number between 16 and 100"
    else none

/-- The department rule: required after trim. -/
def departmentError (employee : EditableEmployee) : Option String :=
  if !jsTruthyStr employee.department ||
      (jsTrim (jsStrOf employee.department) == "") then
    some "Department is required"
  else none

/-- The salary rule: the falsy check (undefined, NaN or 0) reports required,
then Number(salary) must not be NaN and must not be negative. -/
def salaryError (salary : NumVal) : Option String :=
  if !jsTruthyNum salary then
    some "Salary is required"
  else
    let salaryNum := jsNumber salary
    if numIsNaN salaryNum || numLt salaryNum 0 then
      some "Salary must be a valid positive number"
    else none

/-- The anchored regular expression of the hire date rule: four digits,
a dash, two digits, a dash, two digits, and nothing else. -/
def dateRegexTest (s : String) : Bool :=
  match s.data with
  | [y1, y2, y3, y4, s1, m1, m2, s2, d1, d2] =>
    y1.isDigit && y2.isDigit && y3.isDigit && y4.isDigit && s1 == '-' &&
      m1.isDigit && m2.isDigit && s2 == '-' && d1.isDigit && d2.isDigit
  | _ => false

/-- Gregorian leap year. -/
def isLeapYear (y : Nat) : Bool :=
  (y % 4 == 0 && y % 100 != 0) || y % 400 == 0

/-- Length of a month in a year. -/
def daysInMonth (y m : Nat) : Nat :=
  if m == 2 then (if isLeapYear y then 29 else 28)
  else if m == 4 || m == 6 || m == 9 || m == 11 then 30
  else 31

/-- Numeric value of a decimal digit character. -/
def digitVal (c : Char) : Nat :=
  c.toNat - '0'.toNat

/-- Models the check that new Date(s) has a non-NaN time value, for a string
that already passed the YYYY-MM-DD pattern: the ECMAScript date-time string
parse accepts such a string exactly when the month is 01 to 12 and the day
is 01 up to the length of that month in that year, so a pattern-conforming
but impossible calendar date yields an invalid Date. -/
def jsDateValid (s : String) : Bool :=
  match s.data with
  | [y1, y2, y3, y4, _, m1, m2, _, d1, d2] =>
    let y := ((digitVal y1 * 10 + digitVal y2) * 10 + digitVal y3) * 10 + digitVal y4
    let m := digitVal m1 * 10 + digitVal m2
    let d := digitVal d1 * 10 + digitVal d2
    decide (1 ≤ m) && decide (m ≤ 12) && decide (1 ≤ d) && decide (d ≤ daysInMonth y m)
  | _ => false

/-- The hire date rule: required after trim, then the strict YYYY-MM-DD
pattern, then the parsed Date must be valid. -/
def hireDateError (employee : EditableEmployee) : Option String :=
  if !jsTruthyStr employee.hire_date ||
      (jsTrim (jsStrOf employee.hire_date) == "") then
    some "Hire date is required"
  else if !dateRegexTest (jsStrOf employee.hire_date) then
    some "Hire date must be in YYYY-MM-DD format"
  else if !jsDateValid (jsStrOf employee.hire_date) then
    some "Invalid date"
  else none

/-- The errors object of validateEmployee, keyed by field name in the order
the source assigns the keys. -/
def optEntry (key : String) : Option String → List (String × String)
  | some msg => [(key, msg)]
  | none => []

/-- The errors object assembled from the six per-field results. -/
def errList (e1 e2 e3 e4 e5 e6 : Option String) : List (String × String) :=
  optEntry "employee_id" e1 ++ (optEntry "name" e2 ++ (optEntry "age" e3 ++
    (optEntry "department" e4 ++ (optEntry "salary" e5 ++
      optEntry "hire_date" e6))))

/-- validateEmployee: evaluate every field rule against the record and the
whole batch, returning the isValid flag (no error keys) and the errors. -/
def validateEmployee (employee : EditableEmployee)
    (allEmployees : List EditableEmployee)
    (existingEmployees : List String) : Bool × List (String × String) :=
  let errors := errList
    (employeeIdError employee allEmployees existingEmployees)
    (nameError employee)
    (ageError employee.age)
    (departmentError employee)
    (salaryError employee.salary)
    (hireDateError employee)
  (errors.length == 0, errors)

/-- validateAllEmployees: recompute every record from validateEmployee,
replacing isValid and validationErrors wholesale. -/
def validateAllEmployees (employees : List EditableEmployee)
    (existingEmployees : List String) : List EditableEmployee :=
  employees.map (fun emp =>
    let validation := validateEmployee emp employees existingEmployees
    { emp with isValid := validation.1, validationErrors := validation.2 })

/-! ## Correction loop (updateEmployee) -/

/-- A value an edit can carry: the text inputs send strings, the number
inputs send an integer or undefined. -/
inductive FieldVal
  | str (s : String)
  | num (n : NumVal)
deriving DecidableEq

/-- The single-field overwrite of updateEmployee.  The model tracks the six
imported columns, so a key outside them leaves the tracked record
unchanged. -/
def setField (emp : EditableEmployee) (field : String)
    (value : FieldVal) : EditableEmployee :=
  match value with
  | .str s =>
    if field == "employee_id" then { emp with employee_id := some s }
    else if field == "name" then { emp with name := some s }
    else if field == "department" then { emp with department := some s }
    else if field == "hire_date" then { emp with hire_date := some s }
    else emp
  | .num n =>
    if field == "age" then { emp with age := n }
    else if field == "salary" then { emp with salary := n }
    else emp

/-- updateEmployee: overwrite the one field of the record with the matching
local id, then re-validate the entire batch. -/
def updateEmployee (prev : List EditableEmployee) (id : String)
    (field : String) (value : FieldVal)
    (existingEmployees : List String) : List EditableEmployee :=
  let updated := prev.map (fun emp =>
    if emp.id == id then setField emp field value else emp)
  validateAllEmployees updated existingEmployees

/-! ## Record mapper (the row conversion of handleFile) -/

/-- parseInt(value) with no radix argument: skip leading whitespace, read an
optional sign, then the longest prefix of decimal digits, or of hexadecimal
digits after a 0x or 0X prefix; NaN when no digit follows. -/
def parseIntJs (s : String) : NumVal :=
  let cs := s.data.dropWhile isJsSpace
  let signed : Int × List Char :=
    match cs with
    | '-' :: rest => (-1, rest)
    | '+' :: rest => (1, rest)
    | rest => (1, rest)
  match signed.2 with
  | '0' :: x :: rest =>
    if x == 'x' || x == 'X' then
      let ds := rest.takeWhile (fun c =>
        c.isDigit || ('a' ≤ c && c ≤ 'f') || ('A' ≤ c && c ≤ 'F'))
      if ds.isEmpty then .nan
      else .int (signed.1 * (ds.foldl (fun acc c =>
        acc * 16 +
          (if c.isDigit then digitVal c
           else if 'a' ≤ c && c ≤ 'f' then c.toNat - 'a'.toNat + 10
           else c.toNat - 'A'.toNat + 10)) 0 : Nat))
    else
      let ds := signed.2.takeWhile Char.isDigit
      if ds.isEmpty then .nan
      else .int (signed.1 * (ds.foldl (fun acc c => acc * 10 + digitVal c) 0 : Nat))
  | _ =>
    let ds := signed.2.takeWhile Char.isDigit
    if ds.isEmpty then .nan
    else .int (signed.1 * (ds.foldl (fun acc c => acc * 10 + digitVal c) 0 : Nat))

/-- The record every row conversion starts from: every field undefined. -/
def emptyEmployee (id : String) : EditableEmployee :=
  { id := id, employee_id := none, name := none, age := .undef,
    department := none, salary := .undef, hire_date := none,
    isValid := false, validationErrors := [], isExcluded := false }

/-- One header cell of the row conversion of handleFile: the key is the
lowercased trimmed header, the value is the same-position cell trimmed
(an out-of-range or empty cell reads as the empty string); age and salary
go through parseInt when the value is truthy and are undefined otherwise,
the other known fields keep the string, made undefined when empty. -/
def applyCell (employee : EditableEmployee) (header : String)
    (cell : Option String) : EditableEmployee :=
  let key := jsTrim (jsToLower header)
  let value := jsTrim (cell.getD "")
  if key == "age" then
    { employee with age := if value == "" then .undef else parseIntJs value }
  else if key == "salary" then
    { employee with salary := if value == "" then .undef else parseIntJs value }
  else if key == "employee_id" then
    { employee with employee_id := if value == "" then none else some value }
  else if key == "name" then
    { employee with name := if value == "" then none else some value }
  else if key == "department" then
    { employee with department := if value == "" then none else some value }
  else if key == "hire_date" then
    { employee with hire_date := if value == "" then none else some value }
  else employee

/-- The row conversion of handleFile: fold the header cells over the data
row, with the local id emp_ followed by the row index. -/
def mapRow (headerRow : List String) (row : List String)
    (index : Nat) : EditableEmployee :=
  headerRow.enum.foldl (fun employee p => applyCell employee p.2 (row.get? p.1))
    (emptyEmployee ("emp_" ++ toString index))

/-! ## Commit orchestrator (getValidEmployeesForImport, handleImport) -/

/-- getValidEmployeesForImport: the ordered subsequence of records valid at
commit time, projected to the six imported fields. -/
def getValidEmployeesForImport
    (editableEmployees : List EditableEmployee) : List EmployeeCreate :=
  (editableEmployees.filter (fun emp => emp.isValid)).map (fun emp =>
    { employee_id := emp.employee_id, name := emp.name, age := emp.age,
      department := emp.department, salary := emp.salary,
      hire_date := emp.hire_date })

/-- The accumulator the import loop threads: the counters and lists of the
results object, plus the trace of create calls issued to the store. -/
structure ImportResults where
  created : Nat
  failed : Nat
  errors : List String
  created_ids : List String
  calls : List EmployeeCreate
deriving DecidableEq

/-- The await-in-a-loop body of handleImport: one create call per record; a
success increments created and appends the returned identifier, a failure
increments failed and appends the identifier-message line, and the loop
continues either way. -/
def importLoop (createEmployee : EmployeeCreate → Except String StoredEmployee)
    (results : ImportResults) : List EmployeeCreate → ImportResults
  | [] => results
  | employee :: rest =>
    match createEmployee employee with
    | .ok created =>
      importLoop createEmployee
        { results with
          created := results.created + 1,
          created_ids := results.created_ids ++ [created.employee_id],
          calls := results.calls ++ [employee] } rest
    | .error err =>
      importLoop createEmployee
        { results with
          failed := results.failed + 1,
          errors := results.errors ++
            [jsShowOptStr employee.employee_id ++ ": " ++ err],
          calls := results.calls ++ [employee] } rest

/-- handleImport: snapshot the valid records; when there are none, return
early without producing a results object, otherwise run the loop from the
zeroed accumulator. -/
def handleImport (createEmployee : EmployeeCreate → Except String StoredEmployee)
    (editableEmployees : List EditableEmployee) : Option ImportResults :=
  let validEmployees := getValidEmployeesForImport editableEmployees
  if validEmployees.length == 0 then none
  else some (importLoop createEmployee ⟨0, 0, [], [], []⟩ validEmployees)

/-! ## Concrete records used by examples and witnesses -/

/-- A record every field rule accepts, alone in a batch with an empty store. -/
def empOk : EditableEmployee :=
  { id := "emp_0", employee_id := some "EMP001", name := some "Alice",
    age := .int 30, department := some "Engineering", salary := .int 50000,
    hire_date := some "2024-01-15", isValid := false, validationErrors := [],
    isExcluded := false }

/-! ## Lookup lemmas for the errors object -/

theorem lookup_optEntry_append_of_ne (k key : String) (v : Option String)
    (l : List (String × String)) (h : (k == key) = false) :
    List.lookup k (optEntry key v ++ l) = List.lookup k l := by
  cases v <;> simp [optEntry, List.lookup, h]

theorem lookup_optEntry_append_self (k : String) (v : Option String)
    (l : List (String × String)) (hl : List.lookup k l = none) :
    List.lookup k (optEntry k v ++ l) = v := by
  cases v <;> simp [optEntry, List.lookup, hl]

theorem lookup_optEntry_of_ne (k key : String) (v : Option String)
    (h : (k == key) = false) :
    List.lookup k (optEntry key v) = none := by
  cases v <;> simp [optEntry, List.lookup, h]

theorem lookup_optEntry_self (k : String) (v : Option String) :
    List.lookup k (optEntry k v) = v := by
  cases v <;> simp [optEntry, List.lookup]

theorem lookup_errList_employee_id (e1 e2 e3 e4 e5 e6 : Option String) :
    List.lookup "employee_id" (errList e1 e2 e3 e4 e5 e6) = e1 := by
  unfold errList
  apply lookup_optEntry_append_self
  rw [lookup_optEntry_append_of_ne _ _ _ _ (by decide),
    lookup_optEntry_append_of_ne _ _ _ _ (by decide),
    lookup_optEntry_append_of_ne _ _ _ _ (by decide),
    lookup_optEntry_append_of_ne _ _ _ _ (by decide),
    lookup_optEntry_of_ne _ _ _ (by decide)]

theorem lookup_errList_age (e1 e2 e3 e4 e5 e6 : Option String) :
    List.lookup "age" (errList e1 e2 e3 e4 e5 e6) = e3 := by
  unfold errList
  rw [lookup_optEntry_append_of_ne _ _ _ _ (by decide),
    lookup_optEntry_append_of_ne _ _ _ _ (by decide)]
  apply lookup_optEntry_append_self
  rw [lookup_optEntry_append_of_ne _ _ _ _ (by decide),
    lookup_optEntry_append_of_ne _ _ _ _ (by decide),
    lookup_optEntry_of_ne _ _ _ (by decide)]

theorem lookup_errList_salary (e1 e2 e3 e4 e5 e6 : Option String) :
    List.lookup "salary" (errList e1 e2 e3 e4 e5 e6) = e5 := by
  unfold errList
  rw [lookup_optEntry_append_of_ne _ _ _ _ (by decide),
    lookup_optEntry_append_of_ne _ _ _ _ (by decide),
    lookup_optEntry_append_of_ne _ _ _ _ (by decide),
    lookup_optEntry_append_of_ne _ _ _ _ (by decide)]
  apply lookup_optEntry_append_self
  rw [lookup_optEntry_of_ne _ _ _ (by decide)]

theorem lookup_errList_hire_date (e1 e2 e3 e4 e5 e6 : Option String) :
    List.lookup "hire_date" (errList e1 e2 e3 e4 e5 e6) = e6 := by
  unfold errList
  rw [lookup_optEntry_append_of_ne _ _ _ _ (by decide),
    lookup_optEntry_append_of_ne _ _ _ _ (by decide),
    lookup_optEntry_append_of_ne _ _ _ _ (by decide),
    lookup_optEntry_append_of_ne _ _ _ _ (by decide),
    lookup_optEntry_append_of_ne _ _ _ _ (by decide),
    lookup_optEntry_self _ _]

theorem validateEmployee_lookup_employee_id (employee : EditableEmployee)
    (all : List EditableEmployee) (ex : List String) :
    List.lookup "employee_id" (validateEmployee employee all ex).2 =
      employeeIdError employee all ex :=
  lookup_errList_employee_id _ _ _ _ _ _

theorem validateEmployee_lookup_age (employee : EditableEmployee)
    (all : List EditableEmployee) (ex : List String) :
    List.lookup "age" (validateEmployee employee all ex).2 =
      ageError employee.age :=
  lookup_errList_age _ _ _ _ _ _

theorem validateEmployee_lookup_salary (employee : EditableEmployee)
    (all : List EditableEmployee) (ex : List String) :
    List.lookup "salary" (validateEmployee employee all ex).2 =
      salaryError employee.salary :=
  lookup_errList_salary _ _ _ _ _ _

theorem validateEmployee_lookup_hire_date (employee : EditableEmployee)
    (all : List EditableEmployee) (ex : List String) :
    List.lookup "hire_date" (validateEmployee employee all ex).2 =
      hireDateError employee :=
  lookup_errList_hire_date _ _ _ _ _ _

theorem validateEmployee_fst (employee : EditableEmployee)
    (all : List EditableEmployee) (ex : List String) :
    (validateEmployee employee all ex).1 =
      ((validateEmployee employee all ex).2.length == 0) := rfl

theorem beq_zero_eq_isEmpty (l : List (String × String)) :
    (l.length == 0) = l.isEmpty := by
  cases l <;> rfl

theorem validateEmployee_fst_false_of_lookup (employee : EditableEmployee)
    (all : List EditableEmployee) (ex : List String) (k m : String)
    (h : List.lookup k (validateEmployee employee all ex).2 = some m) :
    (validateEmployee employee all ex).1 = false := by
  rw [validateEmployee_fst]
  cases herr : (validateEmployee employee all ex).2 with
  | nil => rw [herr] at h; simp [List.lookup] at h
  | cons p rest => rfl

theorem validateAllEmployees_eq_map (es : List EditableEmployee)
    (ex : List String) :
    validateAllEmployees es ex = es.map (fun emp =>
      { emp with isValid := (validateEmployee emp es ex).1,
                 validationErrors := (validateEmployee emp es ex).2 }) := rfl

/-! ## Characterizations of the employee_id rule -/

theorem jsTruthyStr_of_trim_ne (v : Option String)
    (h : jsTrim (jsStrOf v) ≠ "") : jsTruthyStr v = true := by
  cases v with
  | none => exact absurd rfl h
  | some s =>
    by_cases hs : s = ""
    · subst hs; exact absurd rfl h
    · simp [jsTruthyStr, hs]

theorem employeeIdError_eq_none_iff (employee : EditableEmployee)
    (all : List EditableEmployee) (ex : List String) :
    employeeIdError employee all ex = none ↔
      jsTruthyStr employee.employee_id = true ∧
      jsTrim (jsStrOf employee.employee_id) ≠ "" ∧
      ex.contains (jsTrim (jsStrOf employee.employee_id)) = false ∧
      ∀ emp ∈ all, emp.id ≠ employee.id →
        jsTruthyStr emp.employee_id = true →
        jsTrim (jsStrOf emp.employee_id) ≠ jsTrim (jsStrOf employee.employee_id) := by
  simp only [employeeIdError, csvDupCount]
  split_ifs with hA hC hB
  · constructor
    · intro h; cases h
    · rintro ⟨hT, hE, -, -⟩
      simp only [Bool.or_eq_true, Bool.not_eq_true', beq_iff_eq] at hA
      rcases hA with hA | hA
      · rw [hT] at hA; cases hA
      · exact hE hA
  · constructor
    · intro h; cases h
    · rintro ⟨-, -, hDB, -⟩
      rw [hC] at hDB; cases hDB
  · constructor
    · intro h; cases h
    · rintro ⟨-, -, -, hU⟩
      exfalso
      rw [gt_iff_lt, List.length_pos] at hB
      obtain ⟨emp, hmem⟩ := List.exists_mem_of_ne_nil _ hB
      obtain ⟨hmem2, hp⟩ := List.mem_filter.mp hmem
      simp only [Bool.and_eq_true, Bool.not_eq_true', beq_iff_eq,
        beq_eq_false_iff_ne, ne_eq] at hp
      exact hU emp hmem2 hp.2 hp.1.1 hp.1.2
  · simp only [Bool.or_eq_true, Bool.not_eq_true', beq_iff_eq] at hA
    push_neg at hA
    obtain ⟨hT, hE⟩ := hA
    have hT2 : jsTruthyStr employee.employee_id = true := by
      cases h2 : jsTruthyStr employee.employee_id
      · exact absurd h2 hT
      · rfl
    constructor
    · intro _
      refine ⟨hT2, hE, by simpa using hC, ?_⟩
      intro emp hmem hne htr heq
      simp only [gt_iff_lt, not_lt, Nat.le_zero, List.length_eq_zero,
        List.filter_eq_nil_iff] at hB
      have := hB emp hmem
      simp only [Bool.and_eq_true, Bool.not_eq_true', beq_iff_eq] at this
      exact this ⟨⟨htr, heq⟩, by simp [hne]⟩
    · intro _; rfl

theorem employeeIdError_ne_none_of_dup (employee other : EditableEmployee)
    (all : List EditableEmployee) (ex : List String)
    (hmem : other ∈ all) (hid : other.id ≠ employee.id)
    (hto : jsTruthyStr other.employee_id = true)
    (heq : jsTrim (jsStrOf other.employee_id) =
      jsTrim (jsStrOf employee.employee_id)) :
    employeeIdError employee all ex ≠ none := by
  intro h
  obtain ⟨-, -, -, hU⟩ := (employeeIdError_eq_none_iff employee all ex).mp h
  exact hU other hmem hid hto heq

theorem employeeIdError_db (employee : EditableEmployee)
    (all : List EditableEmployee) (ex : List String)
    (hT : jsTruthyStr employee.employee_id = true)
    (hE : jsTrim (jsStrOf employee.employee_id) ≠ "")
    (hC : ex.contains (jsTrim (jsStrOf employee.employee_id)) = true) :
    employeeIdError employee all ex =
      some "Employee ID already exists in database" := by
  have hA : (!jsTruthyStr employee.employee_id ||
      (jsTrim (jsStrOf employee.employee_id) == "")) = false := by
    simp [hT, hE]
  simp only [employeeIdError, hA, hC]
  rfl

/-! ## Congruence and idempotence of the validation engine -/

theorem csvDupCount_congr (cur selfId : String)
    (all all' : List EditableEmployee)
    (hall : all'.map (fun e => (e.id, e.employee_id)) =
      all.map (fun e => (e.id, e.employee_id))) :
    csvDupCount cur selfId all' = csvDupCount cur selfId all := by
  unfold csvDupCount
  rw [← List.countP_eq_length_filter, ← List.countP_eq_length_filter]
  have h1 : ∀ (l : List EditableEmployee),
      l.countP (fun emp => jsTruthyStr emp.employee_id &&
        (jsTrim (jsStrOf emp.employee_id) == cur) && !(emp.id == selfId)) =
      (l.map (fun e => (e.id, e.employee_id))).countP
        (fun p => jsTruthyStr p.2 && (jsTrim (jsStrOf p.2) == cur) &&
          !(p.1 == selfId)) := by
    intro l
    rw [List.countP_map]
    rfl
  rw [h1, h1, hall]

theorem employeeIdError_congr (emp emp' : EditableEmployee)
    (all all' : List EditableEmployee) (ex : List String)
    (hid : emp'.id = emp.id) (he : emp'.employee_id = emp.employee_id)
    (hall : all'.map (fun e => (e.id, e.employee_id)) =
      all.map (fun e => (e.id, e.employee_id))) :
    employeeIdError emp' all' ex = employeeIdError emp all ex := by
  simp only [employeeIdError]
  rw [he, hid, csvDupCount_congr _ _ all all' hall]

theorem nameError_congr (emp emp' : EditableEmployee)
    (hn : emp'.name = emp.name) : nameError emp' = nameError emp := by
  unfold nameError; rw [hn]

theorem departmentError_congr (emp emp' : EditableEmployee)
    (hd : emp'.department = emp.department) :
    departmentError emp' = departmentError emp := by
  unfold departmentError; rw [hd]

theorem hireDateError_congr (emp emp' : EditableEmployee)
    (hh : emp'.hire_date = emp.hire_date) :
    hireDateError emp' = hireDateError emp := by
  unfold hireDateError; rw [hh]

theorem validateEmployee_congr (emp emp' : EditableEmployee)
    (all all' : List EditableEmployee) (ex : List String)
    (hid : emp'.id = emp.id) (he : emp'.employee_id = emp.employee_id)
    (hn : emp'.name = emp.name) (ha : emp'.age = emp.age)
    (hd : emp'.department = emp.department) (hs : emp'.salary = emp.salary)
    (hh : emp'.hire_date = emp.hire_date)
    (hall : all'.map (fun e => (e.id, e.employee_id)) =
      all.map (fun e => (e.id, e.employee_id))) :
    validateEmployee emp' all' ex = validateEmployee emp all ex := by
  unfold validateEmployee
  rw [employeeIdError_congr emp emp' all all' ex hid he hall,
    nameError_congr emp emp' hn, ha, departmentError_congr emp emp' hd,
    hs, hireDateError_congr emp emp' hh]

theorem validateAll_proj (es : List EditableEmployee) (ex : List String) :
    (validateAllEmployees es ex).map (fun e => (e.id, e.employee_id)) =
      es.map (fun e => (e.id, e.employee_id)) := by
  rw [validateAllEmployees_eq_map, List.map_map]
  rfl

theorem validateEmployee_revalidate (es : List EditableEmployee)
    (ex : List String) (e0 : EditableEmployee) :
    validateEmployee
      { e0 with
        isValid := (validateEmployee e0 es ex).1,
        validationErrors := (validateEmployee e0 es ex).2 }
      (validateAllEmployees es ex) ex =
    validateEmployee e0 es ex :=
  validateEmployee_congr e0 _ es _ ex rfl rfl rfl rfl rfl rfl rfl
    (validateAll_proj es ex)

theorem validateAll_idem (es : List EditableEmployee) (ex : List String) :
    validateAllEmployees (validateAllEmployees es ex) ex =
      validateAllEmployees es ex := by
  have hmemeq : ∀ e ∈ validateAllEmployees es ex,
      ({ e with
        isValid := (validateEmployee e (validateAllEmployees es ex) ex).1,
        validationErrors :=
          (validateEmployee e (validateAllEmployees es ex) ex).2 } :
        EditableEmployee) = e := by
    intro e he
    rw [validateAllEmployees_eq_map] at he
    obtain ⟨e0, -, rfl⟩ := List.mem_map.mp he
    rw [validateEmployee_revalidate es ex e0]
  calc validateAllEmployees (validateAllEmployees es ex) ex
      = (validateAllEmployees es ex).map (fun e =>
          { e with
            isValid := (validateEmployee e (validateAllEmployees es ex) ex).1,
            validationErrors :=
              (validateEmployee e (validateAllEmployees es ex) ex).2 }) :=
        validateAllEmployees_eq_map _ _
    _ = (validateAllEmployees es ex).map (fun e => e) :=
        List.map_congr_left hmemeq
    _ = validateAllEmployees es ex := List.map_id _

/-! ## Claim C6 -/

/-- Claim C6: after any run of the validation engine, every record of the
output has isValid equal to the emptiness of its validationErrors. -/
theorem claim6_isValid_iff_no_errors (es : List EditableEmployee)
    (ex : List String) (o : EditableEmployee)
    (ho : o ∈ validateAllEmployees es ex) :
    o.isValid = o.validationErrors.isEmpty := by
  rw [validateAllEmployees_eq_map] at ho
  obtain ⟨e, -, rfl⟩ := List.mem_map.mp ho
  exact beq_zero_eq_isEmpty (validateEmployee e es ex).2

/-- Witness for claim C6 at a concrete one-record batch. -/
theorem claim6_witness :
    ((validateAllEmployees [empOk] []).getD 0 (emptyEmployee "d")).isValid =
      ((validateAllEmployees [empOk] []).getD 0
        (emptyEmployee "d")).validationErrors.isEmpty :=
  claim6_isValid_iff_no_errors [empOk] [] _ (by decide)

/-! ## Claim C7 -/

/-- Claim C7: a record whose trimmed identifier is non-empty and already in
the existing-identifier set is flagged on employee_id (with the database
message, which overwrites any duplicate message) and is invalid, with no
assumption about other records of the batch. -/
theorem claim7_existing_id_flagged (es : List EditableEmployee)
    (ex : List String) (o : EditableEmployee)
    (ho : o ∈ validateAllEmployees es ex)
    (hE : jsTrim (jsStrOf o.employee_id) ≠ "")
    (hdb : ex.contains (jsTrim (jsStrOf o.employee_id)) = true) :
    List.lookup "employee_id" o.validationErrors =
      some "Employee ID already exists in database" ∧
    o.isValid = false := by
  rw [validateAllEmployees_eq_map] at ho
  obtain ⟨e, -, rfl⟩ := List.mem_map.mp ho
  have hE2 : jsTrim (jsStrOf e.employee_id) ≠ "" := hE
  have hdb2 : ex.contains (jsTrim (jsStrOf e.employee_id)) = true := hdb
  have hT : jsTruthyStr e.employee_id = true := jsTruthyStr_of_trim_ne _ hE2
  have hlk : List.lookup "employee_id" (validateEmployee e es ex).2 =
      some "Employee ID already exists in database" := by
    rw [validateEmployee_lookup_employee_id]
    exact employeeIdError_db e es ex hT hE2 hdb2
  exact ⟨hlk, validateEmployee_fst_false_of_lookup e es ex _ _ hlk⟩

/-- Witness for claim C7: EMP001 is already stored, the batch has no other
record, and the record is still flagged. -/
theorem claim7_witness :
    List.lookup "employee_id"
      ((validateAllEmployees [empOk] ["EMP001"]).getD 0
        (emptyEmployee "d")).validationErrors =
      some "Employee ID already exists in database" ∧
    ((validateAllEmployees [empOk] ["EMP001"]).getD 0
      (emptyEmployee "d")).isValid = false :=
  claim7_existing_id_flagged [empOk] ["EMP001"] _ (by decide) (by decide)
    (by decide)

/-! ## Claim C8 -/

/-- Claim C8: the validation engine is idempotent; a second run with no
intervening edit returns the identical batch, validationErrors included,
because each pass fully replaces the errors of every record. -/
theorem claim8_validate_idempotent (es : List EditableEmployee)
    (ex : List String) :
    validateAllEmployees (validateAllEmployees es ex) ex =
      validateAllEmployees es ex :=
  validateAll_idem es ex

/-! ## Claim C2 -/

/-- A record differing from empOk only in its hire date, which matches the
pattern but is an impossible calendar date. -/
def empFeb30 : EditableEmployee := { empOk with hire_date := some "2024-02-30" }

/-- Claim C2: a record passes the date rule only if its hire date matches
the literal YYYY-MM-DD pattern and denotes a real calendar date; the
pattern-conforming impossible date 2024-02-30 is flagged on hire_date and
makes the record invalid. -/
theorem claim2_date_validation :
    (∀ (emp : EditableEmployee) (all : List EditableEmployee)
      (ex : List String),
      List.lookup "hire_date" (validateEmployee emp all ex).2 = none →
      dateRegexTest (jsStrOf emp.hire_date) = true ∧
      jsDateValid (jsStrOf emp.hire_date) = true) ∧
    dateRegexTest "2024-02-30" = true ∧
    List.lookup "hire_date" (validateEmployee empFeb30 [empFeb30] []).2 =
      some "Invalid date" ∧
    (validateEmployee empFeb30 [empFeb30] []).1 = false := by
  refine ⟨?_, by decide, by decide, by decide⟩
  intro emp all ex h
  rw [validateEmployee_lookup_hire_date] at h
  unfold hireDateError at h
  split_ifs at h with h1 h2 h3
  refine ⟨?_, ?_⟩
  · cases hb : dateRegexTest (jsStrOf emp.hire_date)
    · exact absurd (by simp [hb]) h2
    · rfl
  · cases hb : jsDateValid (jsStrOf emp.hire_date)
    · exact absurd (by simp [hb]) h3
    · rfl

/-! ## Claim C4 (corrected) -/

/-- A record differing from empOk only in its salary, which is the number
zero. -/
def empSalaryZero : EditableEmployee := { empOk with salary := .int 0 }

/-- Claim C4 counterexample: salary 0 is provided, parses, and lies in the
non-negative range, yet the record receives a salary error, because the
required check tests JavaScript truthiness and 0 is falsy. -/
theorem claim4_counterexample :
    List.lookup "salary"
      (validateEmployee empSalaryZero [empSalaryZero] []).2 =
      some "Salary is required" ∧
    (validateEmployee empSalaryZero [empSalaryZero] []).1 = false := by
  decide

theorem ageError_eq_none_iff (age : NumVal) :
    ageError age = none ↔
      ∃ n : Int, age = NumVal.int n ∧ 16 ≤ n ∧ n ≤ 100 := by
  cases age with
  | undef => simp [ageError, jsTruthyNum]
  | nan => simp [ageError, jsTruthyNum]
  | int n =>
    simp only [ageError, jsTruthyNum, jsNumber, numIsNaN, numLt, numGt,
      Bool.not_not, Bool.false_or, Bool.or_eq_true, decide_eq_true_eq,
      beq_iff_eq, NumVal.int.injEq]
    split_ifs with h1 h2
    · constructor
      · intro h; simp at h
      · rintro ⟨m, rfl, hlo, hhi⟩
        exact absurd h1 (by omega)
    · constructor
      · intro h; simp at h
      · rintro ⟨m, rfl, hlo, hhi⟩
        exact absurd h2 (by omega)
    · constructor
      · intro _; exact ⟨n, rfl, by omega, by omega⟩
      · intro _; rfl

theorem salaryError_eq_none_iff (salary : NumVal) :
    salaryError salary = none ↔
      ∃ n : Int, salary = NumVal.int n ∧ 0 < n := by
  cases salary with
  | undef => simp [salaryError, jsTruthyNum]
  | nan => simp [salaryError, jsTruthyNum]
  | int n =>
    simp only [salaryError, jsTruthyNum, jsNumber, numIsNaN, numLt,
      Bool.not_not, Bool.false_or, Bool.or_eq_true, decide_eq_true_eq,
      beq_iff_eq, NumVal.int.injEq]
    split_ifs with h1 h2
    · constructor
      · intro h; simp at h
      · rintro ⟨m, rfl, hpos⟩
        exact absurd h1 (by omega)
    · constructor
      · intro h; simp at h
      · rintro ⟨m, rfl, hpos⟩
        exact absurd h2 (by omega)
    · constructor
      · intro _; exact ⟨n, rfl, by omega⟩
      · intro _; rfl

/-- Claim C4 as amended: a numeric field passes validation exactly when it
holds an integer that is truthy (non-zero) and in range, so the age rule
accepts exactly the integers 16 to 100 and the salary rule accepts exactly
the strictly positive integers; the provided number 0 is rejected by the
required check, which conflates it with a missing value. -/
theorem claim4_numeric_rules (emp : EditableEmployee)
    (all : List EditableEmployee) (ex : List String) :
    (List.lookup "age" (validateEmployee emp all ex).2 = none ↔
      ∃ n : Int, emp.age = NumVal.int n ∧ 16 ≤ n ∧ n ≤ 100) ∧
    (List.lookup "salary" (validateEmployee emp all ex).2 = none ↔
      ∃ n : Int, emp.salary = NumVal.int n ∧ 0 < n) := by
  rw [validateEmployee_lookup_age, validateEmployee_lookup_salary]
  exact ⟨ageError_eq_none_iff emp.age, salaryError_eq_none_iff emp.salary⟩

/-! ## Claim C5 -/

/-- Claim C5: the parser emits exactly one row per non-blank line of the
input; while the inQuotes flag is set a delimiter is appended to the
current cell instead of closing it, while clear it closes the cell; and on
a concrete input a quoted field containing the delimiter comes out as one
cell, with the blank line skipped. -/
theorem claim5_parser_rows (text : String) :
    (parseCSV text).length =
      ((splitChar '\n' text.data).filter
        (fun line => !(trimChars line).isEmpty)).length ∧
    (∀ (cs : List Char) (row : List String) (current : List Char),
      parseCSVLine (',' :: cs) row current true =
        parseCSVLine cs row (current ++ [',']) true) ∧
    (∀ (cs : List Char) (row : List String) (current : List Char),
      parseCSVLine (',' :: cs) row current false =
        parseCSVLine cs (row ++ [String.mk (trimChars current)]) [] false) ∧
    parseCSV "a,\"b,c\",d\n\nx,y" = [["a", "b,c", "d"], ["x", "y"]] := by
  refine ⟨?_, fun cs row current => rfl, fun cs row current => rfl, by decide⟩
  simp [parseCSV]

/-! ## Claim C10 -/

/-- The example file of claim C10: the age cell reads 25abc. -/
def csvTextC10 : String :=
  "employee_id,name,age,department,salary,hire_date\nEMP001,Alice,25abc,Engineering,50000,2024-01-15"

/-- The header row the parser extracts from the example file. -/
def headerRowC10 : List String := (parseCSV csvTextC10).headD []

/-- The data row the parser extracts from the example file. -/
def dataRowC10 : List String := (parseCSV csvTextC10).getD 1 []

/-- The mapped record of the example file. -/
def empC10 : EditableEmployee := mapRow headerRowC10 dataRowC10 0

/-- A store that accepts every record, echoing its identifier. -/
def storeAccept : EmployeeCreate → Except String StoredEmployee :=
  fun e => Except.ok ⟨jsShowOptStr e.employee_id⟩

/-- Claim C10: the age cell 25abc is coerced by parseInt to the leading
integer 25 rather than treated as absent or invalid; the record then passes
the age rule with the truncated value and that value is what the commit
loop sends to the store. -/
theorem claim10_parseInt_truncation :
    parseIntJs "25abc" = NumVal.int 25 ∧
    empC10.age = NumVal.int 25 ∧
    List.lookup "age" ((validateAllEmployees [empC10] []).getD 0
      (emptyEmployee "d")).validationErrors = none ∧
    ((validateAllEmployees [empC10] []).getD 0
      (emptyEmployee "d")).isValid = true ∧
    getValidEmployeesForImport (validateAllEmployees [empC10] []) =
      [(⟨some "EMP001", some "Alice", NumVal.int 25, some "Engineering",
        NumVal.int 50000, some "2024-01-15"⟩ : EmployeeCreate)] ∧
    (importLoop storeAccept ⟨0, 0, [], [], []⟩
        (getValidEmployeesForImport (validateAllEmployees [empC10] []))).calls =
      [(⟨some "EMP001", some "Alice", NumVal.int 25, some "Engineering",
        NumVal.int 50000, some "2024-01-15"⟩ : EmployeeCreate)] := by
  decide

/-! ## Claim C1 -/

/-- Whether a create call succeeded. -/
def isOkB : Except String StoredEmployee → Bool
  | .ok _ => true
  | .error _ => false

/-- Whether the store echoes back the identifier of the record it stores on
success (the assumption under which created_ids lists the records own
identifiers). -/
def echoOK (createEmployee : EmployeeCreate → Except String StoredEmployee)
    (e : EmployeeCreate) : Bool :=
  match createEmployee e with
  | .ok c => some c.employee_id == e.employee_id
  | .error _ => true

theorem importLoop_spec
    (store : EmployeeCreate → Except String StoredEmployee)
    (l : List EmployeeCreate) (acc : ImportResults) :
    (importLoop store acc l).calls = acc.calls ++ l ∧
    (importLoop store acc l).created =
      acc.created + l.countP (fun e => isOkB (store e)) ∧
    (importLoop store acc l).failed =
      acc.failed + l.countP (fun e => !isOkB (store e)) ∧
    (importLoop store acc l).created_ids = acc.created_ids ++
      l.filterMap (fun e => match store e with
        | .ok c => some c.employee_id
        | .error _ => none) ∧
    (importLoop store acc l).errors = acc.errors ++
      l.filterMap (fun e => match store e with
        | .ok _ => none
        | .error m => some (jsShowOptStr e.employee_id ++ ": " ++ m)) := by
  induction l generalizing acc with
  | nil => simp [importLoop]
  | cons e rest ih =>
    cases hs : store e with
    | ok c =>
      have hstep : importLoop store acc (e :: rest) =
          importLoop store
            { acc with
              created := acc.created + 1,
              created_ids := acc.created_ids ++ [c.employee_id],
              calls := acc.calls ++ [e] } rest := by
        simp [importLoop, hs]
      obtain ⟨ha, hb, hc, hd, he2⟩ := ih
        { acc with
          created := acc.created + 1,
          created_ids := acc.created_ids ++ [c.employee_id],
          calls := acc.calls ++ [e] }
      rw [hstep]
      refine ⟨?_, ?_, ?_, ?_, ?_⟩
      · rw [ha]; simp
      · rw [hb]; simp [List.countP_cons, isOkB, hs]; omega
      · rw [hc]; simp [List.countP_cons, isOkB, hs]
      · rw [hd]; simp [List.filterMap_cons, hs]
      · rw [he2]; simp [List.filterMap_cons, hs]
    | error m =>
      have hstep : importLoop store acc (e :: rest) =
          importLoop store
            { acc with
              failed := acc.failed + 1,
              errors := acc.errors ++
                [jsShowOptStr e.employee_id ++ ": " ++ m],
              calls := acc.calls ++ [e] } rest := by
        simp [importLoop, hs]
      obtain ⟨ha, hb, hc, hd, he2⟩ := ih
        { acc with
          failed := acc.failed + 1,
          errors := acc.errors ++ [jsShowOptStr e.employee_id ++ ": " ++ m],
          calls := acc.calls ++ [e] }
      rw [hstep]
      refine ⟨?_, ?_, ?_, ?_, ?_⟩
      · rw [ha]; simp
      · rw [hb]; simp [List.countP_cons, isOkB, hs]
      · rw [hc]; simp [List.countP_cons, isOkB, hs]; omega
      · rw [hd]; simp [List.filterMap_cons, hs]
      · rw [he2]; simp [List.filterMap_cons, hs]

theorem createdIds_of_echo
    (store : EmployeeCreate → Except String StoredEmployee)
    (l : List EmployeeCreate)
    (hecho : ∀ e ∈ l, echoOK store e = true) :
    (l.filterMap (fun e => match store e with
      | .ok c => some c.employee_id
      | .error _ => none)).map some =
    (l.filter (fun e => isOkB (store e))).map (fun e => e.employee_id) := by
  induction l with
  | nil => rfl
  | cons e rest ih =>
    have he := hecho e (List.mem_cons_self e rest)
    have hr : ∀ x ∈ rest, echoOK store x = true :=
      fun x hx => hecho x (List.mem_cons_of_mem e hx)
    cases hs : store e with
    | ok c =>
      have hid : some c.employee_id = e.employee_id := by
        simpa [echoOK, hs] using he
      have hfm : List.filterMap (fun x => match store x with
          | Except.ok c => some c.employee_id
          | Except.error _ => none) (e :: rest) =
          c.employee_id :: List.filterMap (fun x => match store x with
            | Except.ok c => some c.employee_id
            | Except.error _ => none) rest := by
        simp [List.filterMap_cons, hs]
      have hfl : List.filter (fun x => isOkB (store x)) (e :: rest) =
          e :: List.filter (fun x => isOkB (store x)) rest := by
        simp [List.filter_cons, hs, isOkB]
      rw [hfm, hfl, List.map_cons, List.map_cons, ih hr, hid]
    | error m =>
      have hfm : List.filterMap (fun x => match store x with
          | Except.ok c => some c.employee_id
          | Except.error _ => none) (e :: rest) =
          List.filterMap (fun x => match store x with
            | Except.ok c => some c.employee_id
            | Except.error _ => none) rest := by
        simp [List.filterMap_cons, hs]
      have hfl : List.filter (fun x => isOkB (store x)) (e :: rest) =
          List.filter (fun x => isOkB (store x)) rest := by
        simp [List.filter_cons, hs, isOkB]
      rw [hfm, hfl, ih hr]

/-- Claim C1: commit calls the store once per record valid at commit time,
in batch order and for no other record; created plus failed equals the
number of valid records; each success appends the records identifier to
created_ids (under the store-echo assumption), each failure appends its
identifier-message line to errors without stopping the loop; and
handleImport returns no results object when no record is valid. -/
theorem claim1_commit_accounting
    (store : EmployeeCreate → Except String StoredEmployee)
    (es : List EditableEmployee)
    (hecho : ∀ e ∈ getValidEmployeesForImport es, echoOK store e = true) :
    (importLoop store ⟨0, 0, [], [], []⟩
        (getValidEmployeesForImport es)).calls =
      getValidEmployeesForImport es ∧
    (importLoop store ⟨0, 0, [], [], []⟩
          (getValidEmployeesForImport es)).created +
        (importLoop store ⟨0, 0, [], [], []⟩
          (getValidEmployeesForImport es)).failed =
      (es.filter (fun e => e.isValid)).length ∧
    (importLoop store ⟨0, 0, [], [], []⟩
        (getValidEmployeesForImport es)).created_ids.map some =
      ((getValidEmployeesForImport es).filter
        (fun e => isOkB (store e))).map (fun e => e.employee_id) ∧
    (importLoop store ⟨0, 0, [], [], []⟩
        (getValidEmployeesForImport es)).errors =
      (getValidEmployeesForImport es).filterMap (fun e =>
        match store e with
        | .ok _ => none
        | .error m => some (jsShowOptStr e.employee_id ++ ": " ++ m)) ∧
    handleImport store es =
      (if (getValidEmployeesForImport es).length == 0 then none
       else some (importLoop store ⟨0, 0, [], [], []⟩
         (getValidEmployeesForImport es))) := by
  obtain ⟨ha, hb, hc, hd, he2⟩ :=
    importLoop_spec store (getValidEmployeesForImport es) ⟨0, 0, [], [], []⟩
  refine ⟨?_, ?_, ?_, ?_, rfl⟩
  · rw [ha]; rfl
  · rw [hb, hc]
    have hlen : (getValidEmployeesForImport es).length =
        (es.filter (fun e => e.isValid)).length := by
      simp [getValidEmployeesForImport]
    rw [← hlen, List.length_eq_countP_add_countP
      (fun e => isOkB (store e)) (getValidEmployeesForImport es)]
    simp [Bool.not_eq_true]
  · rw [hd]
    simpa using createdIds_of_echo store (getValidEmployeesForImport es) hecho
  · rw [he2]; rfl

/-- The store used by the claim C1 witness: it rejects EMP002 as a
duplicate and accepts everything else. -/
def storeW : EmployeeCreate → Except String StoredEmployee :=
  fun e => if e.employee_id == some "EMP002" then Except.error "duplicate key"
    else Except.ok ⟨jsShowOptStr e.employee_id⟩

/-- The batch used by the claim C1 witness: three valid records and one
invalid record. -/
def esW : List EditableEmployee :=
  [{ empOk with id := "emp_0", employee_id := some "EMP001", isValid := true },
   { empOk with id := "emp_1", employee_id := some "EMP002", isValid := true },
   { empOk with id := "emp_2", employee_id := some "EMP003", isValid := true },
   { empOk with id := "emp_3", employee_id := none }]

/-- Witness for claim C1: on the concrete batch, the second call fails and
the loop still processes the third. -/
theorem claim1_witness :
    (importLoop storeW ⟨0, 0, [], [], []⟩
        (getValidEmployeesForImport esW)).calls =
      getValidEmployeesForImport esW ∧
    (importLoop storeW ⟨0, 0, [], [], []⟩
          (getValidEmployeesForImport esW)).created +
        (importLoop storeW ⟨0, 0, [], [], []⟩
          (getValidEmployeesForImport esW)).failed =
      (esW.filter (fun e => e.isValid)).length ∧
    (importLoop storeW ⟨0, 0, [], [], []⟩
        (getValidEmployeesForImport esW)).created_ids.map some =
      ((getValidEmployeesForImport esW).filter
        (fun e => isOkB (storeW e))).map (fun e => e.employee_id) ∧
    (importLoop storeW ⟨0, 0, [], [], []⟩
        (getValidEmployeesForImport esW)).errors =
      (getValidEmployeesForImport esW).filterMap (fun e =>
        match storeW e with
        | .ok _ => none
        | .error m => some (jsShowOptStr e.employee_id ++ ": " ++ m)) ∧
    handleImport storeW esW =
      (if (getValidEmployeesForImport esW).length == 0 then none
       else some (importLoop storeW ⟨0, 0, [], [], []⟩
         (getValidEmployeesForImport esW))) :=
  claim1_commit_accounting storeW esW (by decide)

/-! ## Positional access helpers -/

theorem getD_map_of_lt (f : EditableEmployee → EditableEmployee)
    (l : List EditableEmployee) (d : EditableEmployee) (i : Nat)
    (hi : i < l.length) :
    (l.map f).getD i d = f (l.getD i d) := by
  rw [List.getD_eq_getElem _ d (by simpa using hi), List.getElem_map,
    List.getD_eq_getElem l d hi]

theorem validateAll_getD (es : List EditableEmployee) (ex : List String)
    (d : EditableEmployee) (i : Nat) (hi : i < es.length) :
    (validateAllEmployees es ex).getD i d =
      { es.getD i d with
        isValid := (validateEmployee (es.getD i d) es ex).1,
        validationErrors := (validateEmployee (es.getD i d) es ex).2 } := by
  rw [validateAllEmployees_eq_map, getD_map_of_lt _ es d i hi]

/-! ## Claim C9 -/

/-- The local id and the six imported field values of a record: everything
an edit may not change on records other than its target. -/
def coreOf (e : EditableEmployee) :
    String × Option String × Option String × NumVal × Option String ×
      NumVal × Option String :=
  (e.id, e.employee_id, e.name, e.age, e.department, e.salary, e.hire_date)

theorem setField_unknown (emp : EditableEmployee) (field : String)
    (v : FieldVal)
    (h : field ∉ (["employee_id", "name", "age", "department", "salary",
      "hire_date", "status", "skills"] : List String)) :
    setField emp field v = emp := by
  simp only [List.mem_cons, List.not_mem_nil, or_false, not_or] at h
  obtain ⟨h1, h2, h3, h4, h5, h6, -, -⟩ := h
  cases v with
  | str s => simp [setField, h1, h2, h4, h6]
  | num n => simp [setField, h3, h5]

/-- Claim C9: an edit keeps the length of the batch; every record whose
local id differs from the edited one keeps its local id and all six field
values (only isValid and validationErrors are recomputed); and an edit
naming a field outside the schema applied to an already-validated batch
leaves the batch unchanged. -/
theorem claim9_edit_frame (es : List EditableEmployee) (ex : List String)
    (id field : String) (v : FieldVal) (d : EditableEmployee) :
    (updateEmployee es id field v ex).length = es.length ∧
    (∀ i, i < es.length → (es.getD i d).id ≠ id →
      coreOf ((updateEmployee es id field v ex).getD i d) =
        coreOf (es.getD i d)) ∧
    (field ∉ (["employee_id", "name", "age", "department", "salary",
        "hire_date", "status", "skills"] : List String) →
      updateEmployee (validateAllEmployees es ex) id field v ex =
        validateAllEmployees es ex) := by
  refine ⟨?_, ?_, ?_⟩
  · rw [updateEmployee, validateAllEmployees_eq_map]
    simp
  · intro i hi hid
    rw [updateEmployee]
    rw [validateAll_getD _ ex d i (by simpa using hi)]
    rw [getD_map_of_lt _ es d i hi]
    rw [if_neg (fun hc => hid (by simpa using hc))]
    rfl
  · intro h
    have hset : ∀ e : EditableEmployee,
        (if e.id == id then setField e field v else e) = e := by
      intro e
      rw [setField_unknown e field v h]
      split_ifs <;> rfl
    have hmap : ∀ (l : List EditableEmployee),
        List.map (fun emp =>
          if emp.id == id then setField emp field v else emp) l = l := by
      intro l
      induction l with
      | nil => rfl
      | cons a t iht => simp only [List.map_cons, hset a, iht]
    rw [updateEmployee, hmap]
    exact validateAll_idem es ex


/-! ## Claim C3 -/

theorem getD_mem (l : List EditableEmployee) (d : EditableEmployee) (i : Nat)
    (hi : i < l.length) : l.getD i d ∈ l := by
  rw [List.getD_eq_getElem l d hi]
  exact List.getElem_mem hi

/-- Claim C3: two distinct records whose trimmed identifiers are equal and
non-empty are both flagged on employee_id; and after editing the first of
the pair to an identifier that is unique in the batch (non-empty, absent
from the store, shared with no other record, while no third record shares
the old identifier and neither identifier is already stored), re-validation
leaves both records with no employee_id error. -/
theorem claim3_duplicate_pair (es : List EditableEmployee) (ex : List String)
    (d : EditableEmployee) (i j : Nat) (v : String)
    (hi : i < es.length) (hj : j < es.length)
    (hij : (es.getD i d).id ≠ (es.getD j d).id)
    (heq : jsTrim (jsStrOf (es.getD i d).employee_id) =
      jsTrim (jsStrOf (es.getD j d).employee_id))
    (hne : jsTrim (jsStrOf (es.getD i d).employee_id) ≠ "")
    (hv : jsTrim v ≠ "")
    (hvdb : ex.contains (jsTrim v) = false)
    (hvu : ∀ e ∈ es, e.id ≠ (es.getD i d).id →
      jsTrim (jsStrOf e.employee_id) ≠ jsTrim v)
    (hbdb : ex.contains (jsTrim (jsStrOf (es.getD j d).employee_id)) = false)
    (hbu : ∀ e ∈ es, e.id ≠ (es.getD i d).id → e.id ≠ (es.getD j d).id →
      jsTruthyStr e.employee_id = true →
      jsTrim (jsStrOf e.employee_id) ≠
        jsTrim (jsStrOf (es.getD j d).employee_id)) :
    (List.lookup "employee_id"
        ((validateAllEmployees es ex).getD i d).validationErrors ≠ none ∧
      List.lookup "employee_id"
        ((validateAllEmployees es ex).getD j d).validationErrors ≠ none) ∧
    (List.lookup "employee_id"
        ((updateEmployee es (es.getD i d).id "employee_id" (.str v)
          ex).getD i d).validationErrors = none ∧
      List.lookup "employee_id"
        ((updateEmployee es (es.getD i d).id "employee_id" (.str v)
          ex).getD j d).validationErrors = none) := by
  have hmemA : es.getD i d ∈ es := getD_mem es d i hi
  have hmemB : es.getD j d ∈ es := getD_mem es d j hj
  have htA : jsTruthyStr (es.getD i d).employee_id = true :=
    jsTruthyStr_of_trim_ne _ hne
  have hneB : jsTrim (jsStrOf (es.getD j d).employee_id) ≠ "" := by
    rw [← heq]; exact hne
  have htB : jsTruthyStr (es.getD j d).employee_id = true :=
    jsTruthyStr_of_trim_ne _ hneB
  have hv0 : v ≠ "" := by
    intro hveq
    apply hv
    rw [hveq]
    decide
  have htv : jsTruthyStr (some v) = true := by simp [jsTruthyStr, hv0]
  constructor
  · constructor
    · rw [validateAll_getD es ex d i hi]
      show List.lookup "employee_id"
        (validateEmployee (es.getD i d) es ex).2 ≠ none
      rw [validateEmployee_lookup_employee_id]
      exact employeeIdError_ne_none_of_dup (es.getD i d) (es.getD j d) es ex
        hmemB (Ne.symm hij) htB heq.symm
    · rw [validateAll_getD es ex d j hj]
      show List.lookup "employee_id"
        (validateEmployee (es.getD j d) es ex).2 ≠ none
      rw [validateEmployee_lookup_employee_id]
      exact employeeIdError_ne_none_of_dup (es.getD j d) (es.getD i d) es ex
        hmemA hij htA heq
  · have hgetDi : (List.map (fun emp =>
        if emp.id == (es.getD i d).id then
          setField emp "employee_id" (FieldVal.str v) else emp) es).getD i d =
        { es.getD i d with employee_id := some v } := by
      rw [getD_map_of_lt _ es d i hi]
      simp [setField]
    have hgetDj : (List.map (fun emp =>
        if emp.id == (es.getD i d).id then
          setField emp "employee_id" (FieldVal.str v) else emp) es).getD j d =
        es.getD j d := by
      rw [getD_map_of_lt _ es d j hj]
      exact if_neg (fun hc => Ne.symm hij (by simpa using hc))
    constructor
    · rw [updateEmployee, validateAll_getD _ ex d i (by simpa using hi),
        hgetDi]
      show List.lookup "employee_id"
        (validateEmployee { es.getD i d with employee_id := some v }
          (List.map (fun emp =>
            if emp.id == (es.getD i d).id then
              setField emp "employee_id" (FieldVal.str v) else emp) es)
          ex).2 = none
      rw [validateEmployee_lookup_employee_id, employeeIdError_eq_none_iff]
      refine ⟨htv, hv, hvdb, ?_⟩
      intro emp hmem hne2 htr2
      obtain ⟨e0, he0, rfl⟩ := List.mem_map.mp hmem
      by_cases hc : e0.id = (es.getD i d).id
      · exact absurd (by simp [hc, setField]) hne2
      · have hfe0 : (if e0.id == (es.getD i d).id then
            setField e0 "employee_id" (FieldVal.str v) else e0) = e0 :=
          if_neg (fun hcc => hc (by simpa using hcc))
        simp only [hfe0]
        exact hvu e0 he0 hc
    · rw [updateEmployee, validateAll_getD _ ex d j (by simpa using hj),
        hgetDj]
      show List.lookup "employee_id"
        (validateEmployee (es.getD j d)
          (List.map (fun emp =>
            if emp.id == (es.getD i d).id then
              setField emp "employee_id" (FieldVal.str v) else emp) es)
          ex).2 = none
      rw [validateEmployee_lookup_employee_id, employeeIdError_eq_none_iff]
      refine ⟨htB, hneB, hbdb, ?_⟩
      intro emp hmem hne2 htr2
      obtain ⟨e0, he0, rfl⟩ := List.mem_map.mp hmem
      by_cases hc : e0.id = (es.getD i d).id
      · have hfe0 : (if e0.id == (es.getD i d).id then
            setField e0 "employee_id" (FieldVal.str v) else e0) =
            { e0 with employee_id := some v } := by
          simp [hc, setField]
        simp only [hfe0]
        intro hcc
        exact hvu (es.getD j d) hmemB (Ne.symm hij) hcc.symm
      · have hfe0 : (if e0.id == (es.getD i d).id then
            setField e0 "employee_id" (FieldVal.str v) else e0) = e0 :=
          if_neg (fun hcc => hc (by simpa using hcc))
        simp only [hfe0] at hne2 htr2 ⊢
        exact hbu e0 he0 hc hne2 htr2

/-- The two colliding records of the claim C3 witness. -/
def esDup : List EditableEmployee :=
  [{ empOk with id := "emp_0", employee_id := some "EMP001" },
   { empOk with id := "emp_1", employee_id := some "EMP001" }]

/-- Witness for claim C3: both records of the concrete duplicate pair are
flagged, and after the first is edited to EMP002 neither has an
employee_id error. -/
theorem claim3_witness :
    (List.lookup "employee_id"
        ((validateAllEmployees esDup []).getD 0 empOk).validationErrors ≠
          none ∧
      List.lookup "employee_id"
        ((validateAllEmployees esDup []).getD 1 empOk).validationErrors ≠
          none) ∧
    (List.lookup "employee_id"
        ((updateEmployee esDup (esDup.getD 0 empOk).id "employee_id"
          (.str "EMP002") []).getD 0 empOk).validationErrors = none ∧
      List.lookup "employee_id"
        ((updateEmployee esDup (esDup.getD 0 empOk).id "employee_id"
          (.str "EMP002") []).getD 1 empOk).validationErrors = none) :=
  claim3_duplicate_pair esDup [] empOk 0 1 "EMP002" (by decide) (by decide)
    (by decide) (by decide) (by decide) (by decide) (by decide) (by decide)
    (by decide) (by decide)

end EmployeeImport
